import Mathlib

/-!
Verification development for the mockapi_forge core: the template-driven
data generator (`lib/dataGenerator`) and the path-based mock resolver
(the dynamic mock-serving route).  Strings are embedded as `List Char`;
JavaScript objects are embedded as association lists (insertion order is
key order); the faker library, being an external dependency, is embedded
as an explicit environment of callables consulted through a call counter
that models its pseudo-random state.
-/

namespace MockForge

/-- Strings of the JavaScript source, embedded as lists of characters. -/
abbrev Str := List Char

/-- `String.prototype.split(c)` for a single-character separator:
splitting never yields the empty list; empty fields are kept. -/
def splitOnChar (c : Char) : Str → List Str
  | [] => [[]]
  | x :: xs =>
    let r := splitOnChar c xs
    if x = c then [] :: r
    else
      match r with
      | [] => [[x]]
      | y :: ys => (x :: y) :: ys

/-- The character class `[\w.]` of the template regex: JavaScript `\w`
is ASCII letters, digits and underscore; the grammar adds the dot. -/
def isWordDot (c : Char) : Bool := c.isAlphanum || c = '_' || c = '.'

/-- JavaScript line terminators, which `.` in a regex never matches. -/
def isLineTerm (c : Char) : Bool :=
  c = '\n' || c = '\r' || c = '\u2028' || c = '\u2029'

/-- Whitespace removed by `String.prototype.trim`. -/
def isJsSpace (c : Char) : Bool :=
  c = ' ' || c = '\t' || c = '\n' || c = '\r' || c = '\x0b' ||
  c = '\x0c' || c = '\u00A0' || c = '\uFEFF' || c = '\u2028' || c = '\u2029'

/-- `String.prototype.trim`. -/
def trimL (s : Str) : Str :=
  ((s.dropWhile isJsSpace).reverse.dropWhile isJsSpace).reverse

/-- The whole-string match `value.match(/^{{([\w.]+)(?:\((.*)\))?}}$/)`
of the data generator (dataGenerator, processValue).  Returns the dotted
path (capture 1) and, when the parenthesized group is present, the raw
argument text (capture 2).  Because `(` and `}` are outside `[\w.]`, the
path capture is the maximal run of word/dot characters after the braces,
and because the pattern is anchored the argument capture is everything
between the `(` following the path and the final `)}}`; `.` does not
cross line terminators. -/
def templateMatchL (cs : Str) : Option (Str × Option Str) :=
  match cs with
  | '\x7b' :: '\x7b' :: rest =>
    match rest.reverse with
    | '\x7d' :: '\x7d' :: revMid =>
      let mid := revMid.reverse
      let p := mid.takeWhile isWordDot
      let tl := mid.dropWhile isWordDot
      if p = [] then none
      else
        match tl with
        | [] => some (p, none)
        | '(' :: t =>
          match t.reverse with
          | ')' :: revA =>
            let a := revA.reverse
            if a.all (fun c => !(isLineTerm c)) then some (p, some a) else none
          | _ => none
        | _ => none
    | _ => none
  | _ => none

/-- JSON values (the `JsonValue` type of dataGenerator).  Objects are
association lists in key-insertion order; numbers are embedded as
integers, no claim computes with numeric leaves. -/
inductive JsonValue where
  | str : Str → JsonValue
  | num : Int → JsonValue
  | bool : Bool → JsonValue
  | null : JsonValue
  | arr : List JsonValue → JsonValue
  | obj : List (Str × JsonValue) → JsonValue
deriving Repr

/-- The faker library, an external dependency, embedded as an
environment: `isFunc` is the reflective walk of `getFakerFunction` below
its `faker`-sentinel check (does the dotted path resolve to a callable);
`call` invokes a generator with optional parsed arguments at a given
pseudo-random state (the natural-number counter), `none` meaning the
generator throws; `parseJson` is `JSON.parse` on argument text, `none`
meaning a parse error is thrown. -/
structure FakerEnv where
  isFunc : Str → Bool
  call : Str → Option JsonValue → Nat → Option JsonValue
  parseJson : Str → Option JsonValue

/-- `getFakerFunction` (dataGenerator): the path is split on dots, must
have first segment the literal sentinel `faker`, and the remaining walk
over the faker object must end at a function. -/
def getFakerFunction (env : FakerEnv) (path : Str) : Bool :=
  if splitOnChar '.' path = [] ∨ (splitOnChar '.' path).headD [] ≠ "faker".toList then
    false
  else env.isFunc path

/-- The error marker for a dotted path that does not resolve. -/
def errUnknown (path : Str) : Str :=
  "Error: Unknown Faker Path (".toList ++ path ++ [')']

/-- The error marker for a failed argument parse or a throwing
generator. -/
def errFaker (path : Str) : Str :=
  "Error: Faker (".toList ++ path ++ [')']

/-- One generator invocation: the call advances the pseudo-random
counter; a throw (`none`) is caught and replaced by the marker. -/
def callFaker (env : FakerEnv) (path : Str) (args : Option JsonValue) (k : Nat) :
    JsonValue × Nat :=
  match env.call path args k with
  | some v => (v, k + 1)
  | none => (.str (errFaker path), k + 1)

/-- The template branch of `processValue` (dataGenerator): resolve the
path, then dispatch on the argument text exactly as the source does —
absent parentheses and blank parentheses both call with no arguments;
non-blank text is parsed as JSON, a parse error being caught into the
`Error: Faker` marker; an unresolved path yields the
`Error: Unknown Faker Path` marker. -/
def applyTemplateCall (env : FakerEnv) (path : Str) (args : Option Str) (k : Nat) :
    JsonValue × Nat :=
  if getFakerFunction env path then
    match args with
    | some a =>
      if trimL a ≠ [] then
        match env.parseJson a with
        | some parsed => callFaker env path (some parsed) k
        | none => (.str (errFaker path), k)
      else callFaker env path none k
    | none => callFaker env path none k
  else (.str (errUnknown path), k)

mutual

/-- `processValue` (dataGenerator): strings are matched against the
template grammar (pass-through on no match), arrays and objects are
rebuilt element-wise in order, other scalars are returned unchanged.
The `pathPrefix` parameter of the source is logging-only and omitted. -/
def processValue (env : FakerEnv) : JsonValue → Nat → JsonValue × Nat
  | .str s, k =>
    match templateMatchL s with
    | none => (.str s, k)
    | some (p, args) => applyTemplateCall env p args k
  | .arr l, k =>
    let r := processList env l k
    (.arr r.1, r.2)
  | .obj kvs, k =>
    let r := processObj env kvs k
    (.obj r.1, r.2)
  | .num n, k => (.num n, k)
  | .bool b, k => (.bool b, k)
  | .null, k => (.null, k)

/-- `value.map(processValue)` with the faker state threaded through. -/
def processList (env : FakerEnv) : List JsonValue → Nat → List JsonValue × Nat
  | [], k => ([], k)
  | x :: xs, k =>
    let r := processValue env x k
    let rs := processList env xs r.2
    (r.1 :: rs.1, rs.2)

/-- The `for key in value` object rebuild with the faker state threaded
through; keys are kept in order. -/
def processObj (env : FakerEnv) : List (Str × JsonValue) → Nat → List (Str × JsonValue) × Nat
  | [], k => ([], k)
  | (key, v) :: rest, k =>
    let r := processValue env v k
    let rs := processObj env rest r.2
    ((key, r.1) :: rs.1, rs.2)

end

/-- `JSON.parse(JSON.stringify(structure))`: on immutable JSON trees the
round-trip is the identity; it exists in the source only to protect the
stored template from mutation during the walk. -/
def deepCopy (v : JsonValue) : JsonValue := v

/-- The loop body of `generateMockData` in array mode: `n` pushes of
`processValue` applied to a fresh deep copy of the template. -/
def genItems (env : FakerEnv) (tmpl : JsonValue) : Nat → Nat → List JsonValue × Nat
  | 0, k => ([], k)
  | n + 1, k =>
    let r := processValue env (deepCopy tmpl) k
    let rs := genItems env tmpl n r.2
    (r.1 :: rs.1, rs.2)

/-- `generateMockData` (dataGenerator): in array mode,
`Math.max(1, arrayCount)` independent expansions of deep copies of the
template; otherwise a single expansion of a deep copy. -/
def generateMockData (env : FakerEnv) (tmpl : JsonValue) (isArray : Bool)
    (arrayCount : Int) (k : Nat) : JsonValue × Nat :=
  if isArray then
    let r := genItems env tmpl (max 1 arrayCount).toNat k
    (.arr r.1, r.2)
  else
    processValue env (deepCopy tmpl) k

/-- The faker state reached after `i` of the independent array-mode
walks starting at state `k`. -/
def stateAfter (env : FakerEnv) (tmpl : JsonValue) (k : Nat) : Nat → Nat
  | 0 => k
  | i + 1 => (processValue env (deepCopy tmpl) (stateAfter env tmpl k i)).2

mutual

/-- Decides that no string leaf of a value is a generator-call template. -/
def noTemplate : JsonValue → Bool
  | .str s => (templateMatchL s).isNone
  | .arr l => noTemplateList l
  | .obj kvs => noTemplateObj kvs
  | .num _ => true
  | .bool _ => true
  | .null => true

def noTemplateList : List JsonValue → Bool
  | [] => true
  | x :: xs => noTemplate x && noTemplateList xs

def noTemplateObj : List (Str × JsonValue) → Bool
  | [] => true
  | (_, v) :: rest => noTemplate v && noTemplateObj rest

end

/-! ### The path-based mock resolver (dynamic mock-serving route) -/

/-- `p.startsWith('/') ? p : '/' + p` — the leading-slash normalization
applied to base paths and path templates in `findMatchingMock`. -/
def withLeadingSlash (p : Str) : Str :=
  if p.head? = some '/' then p else '/' :: p

/-- `p.length > 1 && p.endsWith('/') ? p.slice(0, -1) : p` — the
trailing-slash strip applied after the leading-slash normalization. -/
def dropTrailingSlash (p : Str) : Str :=
  if 1 < p.length ∧ p.getLast? = some '/' then p.dropLast else p

/-- The full normalization each composition input receives:
a leading slash is ensured, then a trailing slash is stripped unless the
value is exactly `/`. -/
def cleanPath (p : Str) : Str := dropTrailingSlash (withLeadingSlash p)

/-- The canonical-pattern composition inside the candidate loop of
`findMatchingMock`: a truthy project base path is normalized and
prepended to the normalized endpoint template, the template `/` alone
standing for the project root; a missing (or empty, hence falsy) base
path leaves the normalized template alone. -/
def composeFullPath (basePath : Option Str) (tmpl : Str) : Str :=
  match basePath with
  | some bp =>
    if bp = [] then cleanPath tmpl
    else
      let cleanProj := cleanPath bp
      let cleanMock := cleanPath tmpl
      if cleanMock = ['/'] then cleanProj else cleanProj ++ cleanMock
  | none => cleanPath tmpl

/-- The requested-path normalization of `findMatchingMock`: `/` plus the
slug parts joined by `/`, one trailing slash stripped when longer than
one character, the empty string mapped to `/`. -/
def normalizeRequestPath (slugParts : List Str) : Str :=
  let requestedPath := '/' :: (List.intercalate ['/'] slugParts)
  let n1 := if 1 < requestedPath.length ∧ requestedPath.getLast? = some '/' then
      requestedPath.dropLast
    else requestedPath
  if n1 = [] then ['/'] else n1

/-- A token of a path pattern: a literal segment or a named parameter. -/
inductive Seg where
  | lit : Str → Seg
  | param : Str → Seg
deriving Repr, DecidableEq

/-- Pattern tokenization.  Modelled from the spec: the route library
(`path-to-regexp`) is an external dependency, and §4.5/§9 fix its
semantics — tokenize the pattern on `/` into literal segments and
`:name` named-parameter segments. -/
def patSegs (pat : Str) : List Seg :=
  ((splitOnChar '/' pat).filter (fun s => s ≠ [])).map
    (fun s =>
      match s with
      | ':' :: name => Seg.param name
      | _ => Seg.lit s)

/-- The non-empty segments of a concrete request path. -/
def pathSegs (p : Str) : List Str :=
  (splitOnChar '/' p).filter (fun s => s ≠ [])

/-- Structural segment matching.  Modelled from the spec (§4.5): equal
segment counts, literal segments compared for equality, a named
parameter matching any single non-empty segment and capturing it by
name, captures accumulated in pattern order. -/
def segMatch : List Seg → List Str → Option (List (Str × Str))
  | [], [] => some []
  | Seg.lit s :: ps, seg :: segs =>
    if seg = s then segMatch ps segs else none
  | Seg.param n :: ps, seg :: segs =>
    if seg ≠ [] then (segMatch ps segs).map (fun r => (n, seg) :: r) else none
  | _, _ => none

/-- `match(fullPathTemplate)(normalizedReqPath)` of the route library:
`some captures` on a structural match, `none` otherwise. -/
def pathMatches (pat p : Str) : Option (List (Str × Str)) :=
  segMatch (patSegs pat) (pathSegs p)

/-- A row of `mock_endpoints` joined with its project's `base_path`, as
fetched by `findMatchingMock`. -/
structure DbMockEndpoint where
  id : Nat
  path_template : Str
  http_method : Str
  base_path : Option Str
  response_structure : JsonValue
  is_array : Bool
  array_count : Int
  status_code : Int

/-- The candidate loop of `findMatchingMock`: candidates in store order;
for each, the canonical pattern is composed and the normalized request
path matched against it; the first structural match is returned and the
captured parameters are discarded (a TODO in the source). -/
def findMatchingMock : List DbMockEndpoint → List Str → Option DbMockEndpoint
  | [], _ => none
  | mock :: rest, slugParts =>
    let fullPathTemplate := composeFullPath mock.base_path mock.path_template
    let normalizedReqPath := normalizeRequestPath slugParts
    match pathMatches fullPathTemplate normalizedReqPath with
    | some _ => some mock
    | none => findMatchingMock rest slugParts

/-- `requestedMethod.toUpperCase()`. -/
def toUpperL (s : Str) : Str := s.map Char.toUpper

/-- `findMatchingMock` including the store-side filter of the fetch:
only the tenant's rows whose `http_method` equals the upper-cased
request method are candidates, in store order. -/
def findMatchingMockFor (mocks : List DbMockEndpoint) (method : Str)
    (slugParts : List Str) : Option DbMockEndpoint :=
  findMatchingMock (mocks.filter (fun m => m.http_method = toUpperL method)) slugParts

/-- The outcome of the store lookup and matching step inside
`handleRequest`'s try block: a (possibly absent) matched definition, or
an exception carrying a message. -/
inductive StepOutcome where
  | ok : Option DbMockEndpoint → StepOutcome
  | thrown : Str → StepOutcome

/-- Association lookup in an embedded JSON object. -/
def lookupField (key : Str) : JsonValue → Option JsonValue
  | .obj kvs =>
    match kvs.find? (fun kv => kv.1 = key) with
    | some kv => some kv.2
    | none => none
  | _ => none

/-- `handleRequest` (dynamic mock-serving route), status and body only —
transport headers are out of scope.  A matched definition yields its
stored status code and the generated body; no match yields 404 with an
explanatory body; a caught exception yields 500 with a body holding the
generic message AND a `details` field carrying the exception's own
message. -/
def handleRequest (env : FakerEnv) (outcome : StepOutcome) (k : Nat) :
    Int × JsonValue :=
  match outcome with
  | .ok (some mock) =>
    (mock.status_code,
      (generateMockData env mock.response_structure mock.is_array mock.array_count k).1)
  | .ok none =>
    (404, .obj [("error".toList,
      .str "Mock definition not found for this path and method.".toList)])
  | .thrown msg =>
    (500, .obj [("error".toList, .str "Internal Server Error".toList),
                ("details".toList, .str msg)])

/-! ### Concrete fixtures used by witnesses and counterexamples -/

/-- A concrete faker environment: `faker.a.b` is a generator returning
the current counter, `faker.boom` is a generator that always throws, and
only the argument text `{}` parses as JSON. -/
def sampleEnv : FakerEnv where
  isFunc p := p = "faker.a.b".toList || p = "faker.boom".toList
  call p _ k := if p = "faker.boom".toList then none else some (.num (Int.ofNat k))
  parseJson a := if a = ['\x7b', '\x7d'] then some (.obj []) else none

/-- Candidate with the parameterized pattern of the spec's matching
scenario. -/
def mockItemsParam : DbMockEndpoint where
  id := 1
  path_template := "/items/:id".toList
  http_method := "GET".toList
  base_path := none
  response_structure := .null
  is_array := false
  array_count := 1
  status_code := 200

/-- Candidate with the literal pattern of the spec's matching
scenario, declared after `mockItemsParam`. -/
def mockItemsActive : DbMockEndpoint where
  id := 2
  path_template := "/items/active".toList
  http_method := "GET".toList
  base_path := none
  response_structure := .null
  is_array := false
  array_count := 1
  status_code := 200

/-! ### Helper lemmas -/

/-- The candidate loop returns the first candidate whose composed
pattern matches the normalized request path. -/
theorem findMatchingMock_eq_find (l : List DbMockEndpoint) (slug : List Str) :
    findMatchingMock l slug =
      l.find? (fun m => (pathMatches (composeFullPath m.base_path m.path_template)
        (normalizeRequestPath slug)).isSome) := by
  induction l with
  | nil => rfl
  | cons m rest ih =>
    rw [findMatchingMock, List.find?]
    cases h : pathMatches (composeFullPath m.base_path m.path_template)
        (normalizeRequestPath slug) with
    | some ps => simp [h]
    | none => simp [h, ih]

/-- The loop's result depends only on which candidates match, never on
the captured segments. -/
theorem findMatchingMock_bool_congr (l : List DbMockEndpoint) (s₁ s₂ : List Str)
    (h : l.map (fun m => (pathMatches (composeFullPath m.base_path m.path_template)
            (normalizeRequestPath s₁)).isSome) =
         l.map (fun m => (pathMatches (composeFullPath m.base_path m.path_template)
            (normalizeRequestPath s₂)).isSome)) :
    findMatchingMock l s₁ = findMatchingMock l s₂ := by
  induction l with
  | nil => rfl
  | cons m rest ih =>
    simp only [List.map_cons, List.cons.injEq] at h
    rw [findMatchingMock, findMatchingMock]
    cases h1 : pathMatches (composeFullPath m.base_path m.path_template)
        (normalizeRequestPath s₁) with
    | some ps =>
      cases h2 : pathMatches (composeFullPath m.base_path m.path_template)
          (normalizeRequestPath s₂) with
      | some qs => rfl
      | none => rw [h1, h2] at h; simp at h
    | none =>
      cases h2 : pathMatches (composeFullPath m.base_path m.path_template)
          (normalizeRequestPath s₂) with
      | some qs => rw [h1, h2] at h; simp at h
      | none => exact ih h.2

/-- `takeWhile`/`dropWhile` split an append at the first failing
character. -/
theorem takeWhile_all_append (f : Char → Bool) (p : Str) (x : Char) (xs : Str)
    (hp : ∀ c ∈ p, f c = true) (hx : f x = false) :
    (p ++ x :: xs).takeWhile f = p ∧ (p ++ x :: xs).dropWhile f = x :: xs := by
  induction p with
  | nil => simp [List.takeWhile, List.dropWhile, hx]
  | cons c cs ih =>
    have hc : f c = true := hp c (by simp)
    have ih' := ih (fun d hd => hp d (by simp [hd]))
    simp [List.takeWhile_cons, List.dropWhile_cons, hc, ih'.1, ih'.2]

/-- Completeness of the grammar match, plain form: a braced nonempty
word/dot path with no parentheses is recognized, capturing the path and
no argument text. -/
theorem templateMatchL_complete_plain (p : Str) (hp : p ≠ [])
    (hw : ∀ c ∈ p, isWordDot c = true) :
    templateMatchL ('\x7b' :: '\x7b' :: (p ++ ['\x7d', '\x7d'])) = some (p, none) := by
  have htw : p.takeWhile isWordDot = p := List.takeWhile_eq_self_iff.mpr hw
  have hdw : p.dropWhile isWordDot = [] := List.dropWhile_eq_nil_iff.mpr hw
  simp [templateMatchL, List.reverse_append, htw, hdw, hp]

/-- Completeness of the grammar match, argument form: a braced nonempty
word/dot path followed by parenthesized argument text free of line
terminators is recognized with both captures. -/
theorem templateMatchL_complete_args (p t : Str) (hp : p ≠ [])
    (hw : ∀ c ∈ p, isWordDot c = true)
    (hnl : ∀ c ∈ t, isLineTerm c = false) :
    templateMatchL ('\x7b' :: '\x7b' :: (p ++ '(' :: (t ++ [')', '\x7d', '\x7d']))) =
      some (p, some t) := by
  have hsplit := takeWhile_all_append isWordDot p '(' (t ++ [')']) hw (by decide)
  have hall : t.all (fun c => !(isLineTerm c)) = true := by
    rw [List.all_eq_true]
    intro c hc
    rw [hnl c hc]
    rfl
  simp [templateMatchL, List.reverse_append, hp, hall, hsplit.1, hsplit.2]

/-- Soundness of the grammar match: a successful match forces the whole
string to be one of the two anchored template shapes, the path capture
nonempty and word/dot throughout, the argument capture free of line
terminators. -/
theorem templateMatchL_sound (cs p : Str) (a : Option Str)
    (h : templateMatchL cs = some (p, a)) :
    p ≠ [] ∧ (∀ c ∈ p, isWordDot c = true) ∧
      ((a = none ∧ cs = '\x7b' :: '\x7b' :: (p ++ ['\x7d', '\x7d'])) ∨
       (∃ t, a = some t ∧ (∀ c ∈ t, isLineTerm c = false) ∧
         cs = '\x7b' :: '\x7b' :: (p ++ '(' :: (t ++ [')', '\x7d', '\x7d'])))) := by
  unfold templateMatchL at h
  split at h
  rotate_right
  · exact absurd h (by simp)
  rename_i rest
  split at h
  rotate_right
  · exact absurd h (by simp)
  rename_i revMid hrev
  have hrest : rest = revMid.reverse ++ ['\x7d', '\x7d'] := by
    have := congrArg List.reverse hrev
    simpa using this
  simp only at h
  split at h
  · exact absurd h (by simp)
  rename_i hpne
  have hwd : ∀ c ∈ revMid.reverse.takeWhile isWordDot, isWordDot c = true :=
    fun c hc => List.mem_takeWhile_imp hc
  split at h
  · -- no parentheses: the whole middle is the word/dot run
    rename_i hdw
    injection h with h'
    injection h' with hpe hae
    have hP : revMid.reverse = p := by
      conv_lhs => rw [← List.takeWhile_append_dropWhile isWordDot revMid.reverse]
      rw [hdw, List.append_nil, hpe]
    refine ⟨by rw [hpe] at hpne; exact hpne, by rw [hpe] at hwd; exact hwd,
      Or.inl ⟨hae.symm, ?_⟩⟩
    rw [hrest, hP]
  · -- parenthesized argument text
    rename_i t hdw
    split at h
    rotate_right
    · exact absurd h (by simp)
    rename_i revA hta
    split at h
    rotate_right
    · exact absurd h (by simp)
    rename_i hall
    injection h with h'
    injection h' with hpe hae
    have ht : t = revA.reverse ++ [')'] := by
      have := congrArg List.reverse hta
      simpa using this
    have hP : revMid.reverse = p ++ '(' :: t := by
      conv_lhs => rw [← List.takeWhile_append_dropWhile isWordDot revMid.reverse]
      rw [hdw, hpe]
    refine ⟨by rw [hpe] at hpne; exact hpne, by rw [hpe] at hwd; exact hwd,
      Or.inr ⟨revA.reverse, hae.symm, ?_, ?_⟩⟩
    · intro c hc
      have := List.all_eq_true.mp hall c hc
      simpa using this
    · rw [hrest, hP, ht]
      simp
  · -- the run is followed by a character that is neither end nor `(`
    exact absurd h (by simp)

/-- Starting one walk later commutes with the state recursion. -/
theorem stateAfter_shift (env : FakerEnv) (tmpl : JsonValue) (k : Nat) (i : Nat) :
    stateAfter env tmpl ((processValue env (deepCopy tmpl) k).2) i =
      stateAfter env tmpl k (i + 1) := by
  induction i with
  | zero => rfl
  | succ n ih => rw [stateAfter, ih]; rfl

/-- The array-mode loop produces exactly the walks of successive faker
states. -/
theorem genItems_eq (env : FakerEnv) (tmpl : JsonValue) (n : Nat) :
    ∀ k, genItems env tmpl n k =
      ((List.range n).map
          (fun i => (processValue env (deepCopy tmpl) (stateAfter env tmpl k i)).1),
        stateAfter env tmpl k n) := by
  induction n with
  | zero => intro k; rfl
  | succ m ih =>
    intro k
    rw [genItems, ih ((processValue env (deepCopy tmpl) k).2)]
    rw [List.range_succ_eq_map, List.map_cons, List.map_map]
    refine congrArg₂ Prod.mk (congrArg₂ List.cons rfl ?_) ?_
    · exact List.map_congr_left (fun i _ => by
        rw [Function.comp_apply, stateAfter_shift])
    · rw [stateAfter_shift]

/-- Element count is preserved by the list walk. -/
theorem processList_length (env : FakerEnv) (l : List JsonValue) :
    ∀ k, (processList env l k).1.length = l.length := by
  induction l with
  | nil => intro k; rfl
  | cons x xs ih => intro k; rw [processList]; simp [ih]

/-- Key list (set and order) is preserved by the object walk. -/
theorem processObj_keys (env : FakerEnv) (kvs : List (Str × JsonValue)) :
    ∀ k, ((processObj env kvs k).1.map Prod.fst) = kvs.map Prod.fst := by
  induction kvs with
  | nil => intro k; rfl
  | cons kv rest ih =>
    intro k
    cases kv with
    | mk key v => rw [processObj]; simp [ih]

mutual

/-- A value with no generator-call leaf is returned unchanged, with the
faker state untouched. -/
theorem processValue_noTemplate (env : FakerEnv) :
    ∀ v, noTemplate v = true → ∀ k, processValue env v k = (v, k)
  | .str s, h, k => by
    rw [noTemplate] at h
    have hn : templateMatchL s = none := Option.isNone_iff_eq_none.mp h
    rw [processValue, hn]
  | .arr l, h, k => by
    rw [noTemplate] at h
    simp only [processValue, processList_noTemplate env l h k]
  | .obj kvs, h, k => by
    rw [noTemplate] at h
    simp only [processValue, processObj_noTemplate env kvs h k]
  | .num n, _, k => by rw [processValue]
  | .bool b, _, k => by rw [processValue]
  | .null, _, k => by rw [processValue]

theorem processList_noTemplate (env : FakerEnv) :
    ∀ l, noTemplateList l = true → ∀ k, processList env l k = (l, k)
  | [], _, _ => rfl
  | x :: xs, h, k => by
    rw [noTemplateList, Bool.and_eq_true] at h
    simp only [processList, processValue_noTemplate env x h.1 k,
      processList_noTemplate env xs h.2 k]

theorem processObj_noTemplate (env : FakerEnv) :
    ∀ kvs, noTemplateObj kvs = true → ∀ k, processObj env kvs k = (kvs, k)
  | [], _, _ => rfl
  | (key, v) :: rest, h, k => by
    rw [noTemplateObj, Bool.and_eq_true] at h
    simp only [processObj, processValue_noTemplate env v h.1 k,
      processObj_noTemplate env rest h.2 k]

end

/-- `withLeadingSlash` output always starts with a slash. -/
theorem withLeadingSlash_head (s : Str) :
    (withLeadingSlash s).head? = some '/' := by
  rw [withLeadingSlash]
  split
  · assumption
  · rfl

/-- `withLeadingSlash` never creates a doubled leading slash. -/
theorem withLeadingSlash_take2 (s : Str) (h1 : s.take 2 ≠ ['/', '/']) :
    (withLeadingSlash s).take 2 ≠ ['/', '/'] := by
  rw [withLeadingSlash]
  split
  · exact h1
  · rename_i hs
    cases s with
    | nil => simp
    | cons c s' =>
      intro hc
      simp only [List.take_succ_cons, List.take_zero, List.take_cons] at hc
      have hcEq : c = '/' := by
        have := List.cons.inj hc
        exact (List.cons.inj this.2).1
      exact hs (by rw [hcEq]; rfl)

/-- `withLeadingSlash` never creates a doubled trailing slash. -/
theorem withLeadingSlash_rev_take2 (s : Str) (h2 : s.reverse.take 2 ≠ ['/', '/']) :
    (withLeadingSlash s).reverse.take 2 ≠ ['/', '/'] := by
  rw [withLeadingSlash]
  split
  · exact h2
  · rename_i hs
    cases s with
    | nil => simp
    | cons c s' =>
      rw [List.reverse_cons] at h2
      rw [List.reverse_cons, List.reverse_cons]
      cases hr : s'.reverse with
      | nil =>
        -- the original string is the single character `c`, not a slash
        simp only [List.nil_append]
        intro hc
        have hcEq : c = '/' := by
          have := List.cons.inj hc
          exact this.1
        exact hs (by rw [hcEq]; rfl)
      | cons d rest =>
        rw [hr] at h2
        have hlen : 2 ≤ ((d :: rest) ++ [c]).length := by simp
        rw [List.take_append_of_le_length hlen]
        exact h2

/-- For inputs without a doubled slash at either edge, the composition
normalization produces a path with a single leading slash and no
trailing slash unless it is exactly `/`. -/
theorem cleanPath_normalized (s : Str) (h1 : s.take 2 ≠ ['/', '/'])
    (h2 : s.reverse.take 2 ≠ ['/', '/']) :
    (cleanPath s).head? = some '/' ∧ (cleanPath s).take 2 ≠ ['/', '/'] ∧
      (cleanPath s = ['/'] ∨ (cleanPath s).getLast? ≠ some '/') := by
  have ht_head := withLeadingSlash_head s
  have ht_take := withLeadingSlash_take2 s h1
  have ht_rev := withLeadingSlash_rev_take2 s h2
  rw [cleanPath]
  generalize ht : withLeadingSlash s = t at ht_head ht_take ht_rev
  rw [dropTrailingSlash]
  split
  · -- a trailing slash is stripped
    rename_i hcond
    obtain ⟨hlen, hlast⟩ := hcond
    obtain ⟨u, hu⟩ : ∃ u, t = u ++ ['/'] := by
      cases hq : t.reverse with
      | nil =>
        rw [List.reverse_eq_nil_iff] at hq
        rw [hq] at hlast
        simp at hlast
      | cons z zs =>
        have hts : t = zs.reverse ++ [z] := by
          have := congrArg List.reverse hq
          simpa using this
        have hz : z = '/' := by
          rw [hts, List.getLast?_concat] at hlast
          exact Option.some.inj hlast
        exact ⟨zs.reverse, by rw [hts, hz]⟩
    subst hu
    rw [List.dropLast_concat]
    have hune : u ≠ [] := by
      intro h
      rw [h] at hlen
      simp at hlen
    refine ⟨?_, ?_, ?_⟩
    · cases u with
      | nil => exact absurd rfl hune
      | cons x u' =>
        rw [List.cons_append] at ht_head
        exact ht_head
    · cases u with
      | nil => exact absurd rfl hune
      | cons x u' =>
        cases u' with
        | nil => simp
        | cons y u'' =>
          have hlen2 : 2 ≤ (x :: y :: u'').length := by simp
          rw [List.take_append_of_le_length hlen2] at ht_take
          exact ht_take
    · right
      intro hul
      obtain ⟨w, hw⟩ : ∃ w, u = w ++ ['/'] := by
        cases hq : u.reverse with
        | nil =>
          rw [List.reverse_eq_nil_iff] at hq
          rw [hq] at hul
          simp at hul
        | cons z zs =>
          have hus : u = zs.reverse ++ [z] := by
            have := congrArg List.reverse hq
            simpa using this
          have hz : z = '/' := by
            rw [hus, List.getLast?_concat] at hul
            exact Option.some.inj hul
          exact ⟨zs.reverse, by rw [hus, hz]⟩
      apply ht_rev
      rw [hw]
      simp [List.reverse_append]
  · -- nothing stripped: either exactly `/` or no trailing slash
    rename_i hcond
    refine ⟨ht_head, ht_take, ?_⟩
    by_cases hl : t.getLast? = some '/'
    · left
      have hlen : ¬ 1 < t.length := fun hgt => hcond ⟨hgt, hl⟩
      cases t with
      | nil => simp at ht_head
      | cons x t' =>
        cases t' with
        | nil =>
          have hx : x = '/' := by
            have : some x = some '/' := ht_head
            exact Option.some.inj this
          rw [hx]
        | cons y t'' => simp at hlen
    · right
      exact hl

/-! ### Claim theorems -/

/-- Claim C1: for every method and request path, the resolver examines
the stored candidates in store order and returns the first one whose
composed canonical pattern structurally matches the normalized request
path (the `find?` of the match test), no later candidate mattering; in
particular, with candidates `/items/:id` then `/items/active` in that
order, a request for `/items/active` resolves to `/items/:id`, the
underlying structural match capturing `id = "active"`. -/
theorem c1_first_match_wins :
    (∀ (mocks : List DbMockEndpoint) (method : Str) (slugParts : List Str),
      findMatchingMockFor mocks method slugParts =
        (mocks.filter (fun m => m.http_method = toUpperL method)).find?
          (fun m => (pathMatches (composeFullPath m.base_path m.path_template)
            (normalizeRequestPath slugParts)).isSome))
    ∧ findMatchingMockFor [mockItemsParam, mockItemsActive] "GET".toList
        ["items".toList, "active".toList] = some mockItemsParam
    ∧ pathMatches (composeFullPath mockItemsParam.base_path mockItemsParam.path_template)
        (normalizeRequestPath ["items".toList, "active".toList]) =
        some [("id".toList, "active".toList)] :=
  ⟨fun mocks method slugParts => findMatchingMock_eq_find _ slugParts, rfl, rfl⟩

/-- Claim C2: in array mode the generator returns an array of exactly
`max(1, arrayCount)` elements, the `i`-th being its own walk over its
own deep copy of the template starting at the faker state reached after
`i` preceding walks. -/
theorem c2_array_mode :
    (∀ (env : FakerEnv) (tmpl : JsonValue) (n : Int) (k : Nat),
      generateMockData env tmpl true n k =
        (.arr ((List.range (max 1 n).toNat).map
            (fun i => (processValue env (deepCopy tmpl) (stateAfter env tmpl k i)).1)),
          stateAfter env tmpl k (max 1 n).toNat))
    ∧ (∀ (env : FakerEnv) (tmpl : JsonValue) (n : Int) (k : Nat),
      ∃ l, (generateMockData env tmpl true n k).1 = .arr l ∧
        l.length = (max 1 n).toNat) := by
  constructor
  · intro env tmpl n k
    simp [generateMockData, genItems_eq]
  · intro env tmpl n k
    simp only [generateMockData, genItems_eq, if_true]
    exact ⟨_, rfl, by simp⟩

/-- Claim C8 counterexample: two requests whose structural matches
capture different `id` bindings produce identical resolver results — the
resolver's result carries no captured parameter values. -/
theorem c8_counterexample :
    findMatchingMock [mockItemsParam] ["items".toList, "alpha".toList] =
      findMatchingMock [mockItemsParam] ["items".toList, "beta".toList]
    ∧ pathMatches (composeFullPath mockItemsParam.base_path mockItemsParam.path_template)
        (normalizeRequestPath ["items".toList, "alpha".toList]) =
        some [("id".toList, "alpha".toList)]
    ∧ pathMatches (composeFullPath mockItemsParam.base_path mockItemsParam.path_template)
        (normalizeRequestPath ["items".toList, "beta".toList]) =
        some [("id".toList, "beta".toList)]
    ∧ ([("id".toList, "alpha".toList)] : List (Str × Str)) ≠
        [("id".toList, "beta".toList)] :=
  ⟨rfl, rfl, rfl, by decide⟩

/-- Claim C8 (amended): the matcher computes captured parameter values
during the structural match but the resolver discards them, returning
only the matched endpoint definition — its result depends only on which
candidates match, not on the captured segments. -/
theorem c8_captures_discarded :
    ∀ (l : List DbMockEndpoint) (s₁ s₂ : List Str),
      l.map (fun m => (pathMatches (composeFullPath m.base_path m.path_template)
          (normalizeRequestPath s₁)).isSome) =
      l.map (fun m => (pathMatches (composeFullPath m.base_path m.path_template)
          (normalizeRequestPath s₂)).isSome) →
      findMatchingMock l s₁ = findMatchingMock l s₂ :=
  fun l s₁ s₂ h => findMatchingMock_bool_congr l s₁ s₂ h

/-- Witness for the amended claim C8 at the concrete scenario. -/
theorem c8_captures_discarded_witness :
    findMatchingMock [mockItemsParam] ["items".toList, "alpha".toList] =
      findMatchingMock [mockItemsParam] ["items".toList, "beta".toList] :=
  c8_captures_discarded [mockItemsParam] ["items".toList, "alpha".toList]
    ["items".toList, "beta".toList] rfl

/-- Claim C9 counterexample: a caught internal failure is answered with
status 500 and the generic message, but the response body also carries a
`details` field holding the exception's own message — internal details
ARE included in the body sent to the caller. -/
theorem c9_counterexample :
    handleRequest sampleEnv
        (StepOutcome.thrown "connect ECONNREFUSED 127.0.0.1:5432".toList) 0 =
      (500, .obj [("error".toList, .str "Internal Server Error".toList),
                  ("details".toList, .str "connect ECONNREFUSED 127.0.0.1:5432".toList)])
    ∧ lookupField "details".toList
        (handleRequest sampleEnv
          (StepOutcome.thrown "connect ECONNREFUSED 127.0.0.1:5432".toList) 0).2 =
        some (.str "connect ECONNREFUSED 127.0.0.1:5432".toList) :=
  ⟨rfl, rfl⟩

/-- Claim C9 (amended): an unexpected failure is answered with status
500 and the generic `Internal Server Error` message, but the body also
includes a `details` field carrying the thrown error's message; no match
yields the 404 body, and a match yields the stored status code with the
generated body. -/
theorem c9_internal_error_response :
    ∀ (env : FakerEnv) (msg : Str) (k : Nat) (mock : DbMockEndpoint),
      handleRequest env (.thrown msg) k =
        (500, .obj [("error".toList, .str "Internal Server Error".toList),
                    ("details".toList, .str msg)])
      ∧ handleRequest env (.ok none) k =
        (404, .obj [("error".toList,
          .str "Mock definition not found for this path and method.".toList)])
      ∧ handleRequest env (.ok (some mock)) k =
        (mock.status_code,
          (generateMockData env mock.response_structure mock.is_array
            mock.array_count k).1) :=
  fun env msg k mock => ⟨rfl, rfl, rfl⟩

/-- Claim C10: a whole-string template whose dotted path does not start
with the literal sentinel `faker` is not passed through: the leaf is
replaced by the unknown-generator-path marker containing that path. -/
theorem c10_non_faker_sentinel :
    ∀ (env : FakerEnv) (s p : Str) (a : Option Str) (k : Nat),
      templateMatchL s = some (p, a) →
      (splitOnChar '.' p).headD [] ≠ "faker".toList →
      processValue env (.str s) k = (.str (errUnknown p), k) := by
  intro env s p a k h hsent
  have hg : getFakerFunction env p = false := by
    rw [getFakerFunction, if_pos (Or.inr hsent)]
  rw [processValue, h]
  simp [applyTemplateCall, hg]

/-- Witness for claim C10 at `{{name.first}}`. -/
theorem c10_witness :
    processValue sampleEnv (.str "{{name.first}}".toList) 0 =
      (.str (errUnknown "name.first".toList), 0) :=
  c10_non_faker_sentinel sampleEnv "{{name.first}}".toList "name.first".toList
    none 0 rfl (by decide)

/-- Claim C7: a template with no generator-call string leaf expands, in
non-array mode, to a value deep-equal to the input — scalars unchanged,
arrays of the same length and order, objects with the same key list —
and the faker state is untouched. -/
theorem c7_identity :
    ∀ (env : FakerEnv) (v : JsonValue) (count : Int) (k : Nat),
      noTemplate v = true →
      generateMockData env v false count k = (v, k) := by
  intro env v count k h
  have := processValue_noTemplate env v h k
  simpa [generateMockData, deepCopy] using this

/-- Witness for claim C7 at a concrete template-free value. -/
theorem c7_witness :
    generateMockData sampleEnv
        (.obj [("a".toList, .num 1), ("b".toList, .str "hello".toList),
               ("c".toList, .arr [.bool true, .null])]) false 1 0 =
      (.obj [("a".toList, .num 1), ("b".toList, .str "hello".toList),
             ("c".toList, .arr [.bool true, .null])], 0) :=
  c7_identity sampleEnv _ 1 0 rfl

/-- Claim C4: every per-leaf failure — unresolved dotted path, argument
text failing to parse as JSON, or a throwing generator — is recovered
locally into an error-marker string containing the dotted path, and
composite values are always rebuilt in full: arrays keep their length,
objects keep their key list, every other leaf being walked normally. -/
theorem c4_leaf_failure_recovery :
    (∀ (env : FakerEnv) (s p : Str) (a : Option Str) (k : Nat),
      templateMatchL s = some (p, a) → getFakerFunction env p = false →
      processValue env (.str s) k = (.str (errUnknown p), k))
    ∧ (∀ (env : FakerEnv) (s p a : Str) (k : Nat),
      templateMatchL s = some (p, some a) → getFakerFunction env p = true →
      trimL a ≠ [] → env.parseJson a = none →
      processValue env (.str s) k = (.str (errFaker p), k))
    ∧ (∀ (env : FakerEnv) (s p : Str) (k : Nat),
      templateMatchL s = some (p, none) → getFakerFunction env p = true →
      env.call p none k = none →
      processValue env (.str s) k = (.str (errFaker p), k + 1))
    ∧ (∀ (env : FakerEnv) (l : List JsonValue) (k : Nat),
      (processValue env (.arr l) k).1 = .arr (processList env l k).1 ∧
      (processList env l k).1.length = l.length)
    ∧ (∀ (env : FakerEnv) (kvs : List (Str × JsonValue)) (k : Nat),
      (processValue env (.obj kvs) k).1 = .obj (processObj env kvs k).1 ∧
      (processObj env kvs k).1.map Prod.fst = kvs.map Prod.fst) := by
  refine ⟨?_, ?_, ?_, ?_, ?_⟩
  · intro env s p a k h hg
    rw [processValue, h]
    simp [applyTemplateCall, hg]
  · intro env s p a k h hg ht hp
    rw [processValue, h]
    simp [applyTemplateCall, hg, ht, hp]
  · intro env s p k h hg hc
    rw [processValue, h]
    simp [applyTemplateCall, hg, callFaker, hc]
  · intro env l k
    exact ⟨by simp [processValue], processList_length env l k⟩
  · intro env kvs k
    exact ⟨by simp [processValue], processObj_keys env kvs k⟩

/-- Witness for claim C4: the three failure kinds at concrete leaves of
the sample environment, and the structural clauses at concrete
composites. -/
theorem c4_witness :
    processValue sampleEnv (.str "{{faker.nope}}".toList) 0 =
      (.str (errUnknown "faker.nope".toList), 0)
    ∧ processValue sampleEnv (.str "{{faker.a.b(xx)}}".toList) 0 =
      (.str (errFaker "faker.a.b".toList), 0)
    ∧ processValue sampleEnv (.str "{{faker.boom}}".toList) 0 =
      (.str (errFaker "faker.boom".toList), 1)
    ∧ (processValue sampleEnv (.arr [.str "{{faker.boom}}".toList, .num 9]) 0).1 =
      .arr (processList sampleEnv [.str "{{faker.boom}}".toList, .num 9] 0).1
    ∧ (processObj sampleEnv [("bad".toList, .str "{{faker.nope}}".toList),
        ("good".toList, .num 2)] 0).1.map Prod.fst =
      ([("bad".toList, .str "{{faker.nope}}".toList),
        ("good".toList, .num 2)] : List (Str × JsonValue)).map Prod.fst :=
  ⟨c4_leaf_failure_recovery.1 sampleEnv _ _ none 0 rfl rfl,
   c4_leaf_failure_recovery.2.1 sampleEnv _ _ "xx".toList 0 rfl rfl (by decide) rfl,
   c4_leaf_failure_recovery.2.2.1 sampleEnv _ _ 0 rfl rfl rfl,
   (c4_leaf_failure_recovery.2.2.2.1 sampleEnv _ 0).1,
   (c4_leaf_failure_recovery.2.2.2.2 sampleEnv _ 0).2⟩

/-- Claim C6: when the dotted path resolves to a callable, the
no-parentheses form and the blank-parentheses form of the template both
invoke the generator with no arguments — the two calls are the same
call. -/
theorem c6_no_arg_equivalence :
    ∀ (env : FakerEnv) (s₁ s₂ p : Str) (a : Str) (k : Nat),
      templateMatchL s₁ = some (p, none) →
      templateMatchL s₂ = some (p, some a) →
      trimL a = [] →
      getFakerFunction env p = true →
      processValue env (.str s₁) k = callFaker env p none k ∧
      processValue env (.str s₂) k = callFaker env p none k := by
  intro env s₁ s₂ p a k h₁ h₂ ht hg
  constructor
  · rw [processValue, h₁]
    simp [applyTemplateCall, hg]
  · rw [processValue, h₂]
    simp [applyTemplateCall, hg, ht]

/-- Witness for claim C6 at `{{faker.a.b}}` and `{{faker.a.b()}}`. -/
theorem c6_witness :
    processValue sampleEnv (.str "{{faker.a.b}}".toList) 3 =
      callFaker sampleEnv "faker.a.b".toList none 3
    ∧ processValue sampleEnv (.str "{{faker.a.b()}}".toList) 3 =
      callFaker sampleEnv "faker.a.b".toList none 3 :=
  c6_no_arg_equivalence sampleEnv "{{faker.a.b}}".toList "{{faker.a.b()}}".toList
    "faker.a.b".toList [] 3 rfl rfl rfl rfl

/-- Claim C3: a string leaf is treated as a generator-call template
exactly when the entire string matches the anchored grammar — the walker
passes any non-matching string through unchanged and dispatches any
matching string to the generator-call branch; a match forces the string
to be one of the two whole-string template shapes (soundness), and every
such shape matches (completeness), so partial or inline templating
inside a larger string is impossible. -/
theorem c3_template_grammar :
    (∀ (env : FakerEnv) (s : Str) (k : Nat),
      templateMatchL s = none → processValue env (.str s) k = (.str s, k))
    ∧ (∀ (env : FakerEnv) (s p : Str) (a : Option Str) (k : Nat),
      templateMatchL s = some (p, a) →
      processValue env (.str s) k = applyTemplateCall env p a k)
    ∧ (∀ (s p : Str) (a : Option Str), templateMatchL s = some (p, a) →
      p ≠ [] ∧ (∀ c ∈ p, isWordDot c = true) ∧
      ((a = none ∧ s = '\x7b' :: '\x7b' :: (p ++ ['\x7d', '\x7d'])) ∨
       (∃ t, a = some t ∧ (∀ c ∈ t, isLineTerm c = false) ∧
         s = '\x7b' :: '\x7b' :: (p ++ '(' :: (t ++ [')', '\x7d', '\x7d'])))))
    ∧ (∀ p : Str, p ≠ [] → (∀ c ∈ p, isWordDot c = true) →
      templateMatchL ('\x7b' :: '\x7b' :: (p ++ ['\x7d', '\x7d'])) = some (p, none))
    ∧ (∀ p t : Str, p ≠ [] → (∀ c ∈ p, isWordDot c = true) →
      (∀ c ∈ t, isLineTerm c = false) →
      templateMatchL ('\x7b' :: '\x7b' :: (p ++ '(' :: (t ++ [')', '\x7d', '\x7d']))) =
        some (p, some t)) := by
  refine ⟨?_, ?_, ?_, ?_, ?_⟩
  · intro env s k h
    rw [processValue, h]
  · intro env s p a k h
    rw [processValue, h]
  · exact templateMatchL_sound
  · exact templateMatchL_complete_plain
  · exact templateMatchL_complete_args

/-- Witness for claim C3: pass-through of a string with inline template
text, dispatch of a whole-string template, and the grammar at concrete
path and argument text. -/
theorem c3_witness :
    processValue sampleEnv (.str "see {{faker.a.b}} here".toList) 7 =
      (.str "see {{faker.a.b}} here".toList, 7)
    ∧ processValue sampleEnv (.str "{{faker.a.b}}".toList) 7 =
      applyTemplateCall sampleEnv "faker.a.b".toList none 7
    ∧ ("faker.a.b".toList ≠ [] ∧
        (∀ c ∈ "faker.a.b".toList, isWordDot c = true) ∧
        (((none : Option Str) = none ∧ "{{faker.a.b}}".toList =
            '\x7b' :: '\x7b' :: ("faker.a.b".toList ++ ['\x7d', '\x7d'])) ∨
         (∃ t, (none : Option Str) = some t ∧ (∀ c ∈ t, isLineTerm c = false) ∧
           "{{faker.a.b}}".toList =
             '\x7b' :: '\x7b' :: ("faker.a.b".toList ++ '(' :: (t ++ [')', '\x7d', '\x7d'])))))
    ∧ templateMatchL ('\x7b' :: '\x7b' :: ("faker.a.b".toList ++ ['\x7d', '\x7d'])) =
        some ("faker.a.b".toList, none)
    ∧ templateMatchL ('\x7b' :: '\x7b' :: ("faker.a.b".toList ++ '(' ::
          ("1".toList ++ [')', '\x7d', '\x7d']))) =
        some ("faker.a.b".toList, some "1".toList) :=
  ⟨c3_template_grammar.1 sampleEnv _ 7 rfl,
   c3_template_grammar.2.1 sampleEnv _ _ none 7 rfl,
   c3_template_grammar.2.2.1 _ _ none rfl,
   c3_template_grammar.2.2.2.1 _ (by decide) (by decide),
   c3_template_grammar.2.2.2.2 _ _ (by decide) (by decide) (by decide)⟩

/-- Claim C5: composition normalizes both inputs by ensuring a leading
slash and stripping a trailing slash unless the value is exactly `/`
(for inputs without doubled edge slashes the result has a single leading
slash and no trailing slash unless it is `/` itself), the normalized
endpoint pattern `/` makes the canonical pattern the normalized group
base path alone, and concretely compose("/shop", "/") = "/shop",
compose("/shop", "/items/:id") = "/shop/items/:id", and
compose(null, "/items/") = "/items". -/
theorem c5_path_composition :
    (∀ s : Str, s.take 2 ≠ ['/', '/'] → s.reverse.take 2 ≠ ['/', '/'] →
      (cleanPath s).head? = some '/' ∧ (cleanPath s).take 2 ≠ ['/', '/'] ∧
        (cleanPath s = ['/'] ∨ (cleanPath s).getLast? ≠ some '/'))
    ∧ (∀ bp tmpl : Str, bp ≠ [] →
      composeFullPath (some bp) tmpl =
        (if cleanPath tmpl = ['/'] then cleanPath bp
         else cleanPath bp ++ cleanPath tmpl))
    ∧ (∀ tmpl : Str, composeFullPath none tmpl = cleanPath tmpl)
    ∧ composeFullPath (some "/shop".toList) "/".toList = "/shop".toList
    ∧ composeFullPath (some "/shop".toList) "/items/:id".toList =
        "/shop/items/:id".toList
    ∧ composeFullPath none "/items/".toList = "/items".toList := by
  refine ⟨cleanPath_normalized, ?_, fun tmpl => rfl, rfl, rfl, rfl⟩
  intro bp tmpl hbp
  rw [composeFullPath, if_neg hbp]

/-- Witness for claim C5: the normalization properties at `/shop/` and
the composition equation at `/shop` with `/items/:id`. -/
theorem c5_witness :
    ((cleanPath "/shop/".toList).head? = some '/' ∧
      (cleanPath "/shop/".toList).take 2 ≠ ['/', '/'] ∧
      (cleanPath "/shop/".toList = ['/'] ∨
        (cleanPath "/shop/".toList).getLast? ≠ some '/'))
    ∧ composeFullPath (some "/shop".toList) "/items/:id".toList =
        (if cleanPath "/items/:id".toList = ['/'] then cleanPath "/shop".toList
         else cleanPath "/shop".toList ++ cleanPath "/items/:id".toList) :=
  ⟨c5_path_composition.1 "/shop/".toList (by decide) (by decide),
   c5_path_composition.2.1 "/shop".toList "/items/:id".toList (by decide)⟩

end MockForge
